import Mathlib

/-!
Shallow embedding of the login-attempt throttling guard of
`src/api/components/authentication/authentication-controller.js`, and of the
transfer-creation service of `src/api/components/users/users-service.js`.

JavaScript numbers that the controller manipulates (failure counters,
millisecond timestamps) are embedded as `Int`; the two module-level mutable
maps `loginAttempts` and `lastLoginAttemptTime` become the two fields of
`GuardState`, modelled as functions `String → Option Int` (`none` = the key
is absent from the object, as after `delete`).
-/

namespace AuthGuard

/-- `const MAX_LOGIN_ATTEMPTS = 4;` -/
def MAX_LOGIN_ATTEMPTS : Int := 4

/-- `const LOGIN_TIMEOUT = 30 * 60 * 1000;` (30 minutes in ms). -/
def LOGIN_TIMEOUT : Int := 30 * 60 * 1000

/-- The penalty wait in the lockout branch:
`await new Promise((resolve) => setTimeout(resolve, 1 * 60 * 1000));` (ms). -/
def PENALTY_DELAY : Nat := 1 * 60 * 1000

/-- `email.toLowerCase()` — the key normalization applied on entry. -/
def normKey (email : String) : String := ⟨email.data.map Char.toLower⟩

/-- A JS-object map from identity keys to numbers; `none` models an absent
property (`undefined`), as produced by `delete m[key]`. -/
def JsMap : Type := String → Option Int

/-- `m[key] = v` -/
def mapSet (m : JsMap) (k : String) (v : Int) : JsMap :=
  fun x => if x = k then some v else m x

/-- `delete m[key]` -/
def mapDel (m : JsMap) (k : String) : JsMap :=
  fun x => if x = k then none else m x

/-- `m[key] || 0` (the map only ever stores non-negative counters, and `0` is
falsy in JS, so `||` coincides with `getD 0` on the stored values). -/
def getCount (m : JsMap) (k : String) : Int := (m k).getD 0

/-- The module-level mutable state of the controller: the two maps
`let loginAttempts = {};` and `let lastLoginAttemptTime = {};`. -/
structure GuardState where
  loginAttempts : JsMap
  lastLoginAttemptTime : JsMap

/-- Both maps start empty. -/
def GuardState.clean : GuardState := ⟨fun _ => none, fun _ => none⟩

/-- The three-way classification of one call to `login`:
`authenticated` = the 200 response, `rejected n` = the
`INVALID_CREDENTIALS` throw after the failure counter was set to `n`
(the number of consecutive failures now recorded for the identity),
`locked` = the `FORBIDDEN` "Too many failed login attempts" throw. -/
inductive Outcome where
  | authenticated : Outcome
  | rejected : Int → Outcome
  | locked : Outcome
deriving DecidableEq, Repr

/-- What one call to `login` does besides mutating the maps:
its classification, the synchronous delay (ms) it awaited before answering,
and the attempt figure `5 - remainingAttempts` written to the log line,
when the call logs one. -/
structure StepResult where
  outcome : Outcome
  delayMs : Nat
  logged : Option Int
deriving DecidableEq, Repr

/-- The staleness condition of the controller, read on entry:
`lastLoginAttemptTime[key] && now - lastLoginAttemptTime[key] > LOGIN_TIMEOUT`
(a stored timestamp `0` is falsy in JS, hence the `t ≠ 0` conjunct). -/
def staleFires (g : GuardState) (key : String) (now : Int) : Bool :=
  match g.lastLoginAttemptTime key with
  | some t => if t ≠ 0 ∧ LOGIN_TIMEOUT < now - t then true else false
  | none => false

/-- The body of `async function login(request, response, next)` for one
request carrying `email` and `password`, with the credential check
`await authenticationServices.checkLoginCredentials(email, password)`
abstracted to its truthiness `ok`, and `Date.now()` passed as `now`.

Mirrors the source order: `attempts` and `remainingAttempts` are read
BEFORE the staleness reset; the reset writes `loginAttempts[key] = 0`;
the lockout branch awaits the penalty, deletes `loginAttempts[key]` and
throws `FORBIDDEN`; the failure branch re-reads the (possibly reset) map
for `loginAttempts[key] = (loginAttempts[key] || 0) + 1` and sets
`lastLoginAttemptTime[key] = now`; the success branch deletes
`loginAttempts[key]` only. -/
def login (g : GuardState) (email : String) (ok : Bool) (now : Int) :
    StepResult × GuardState :=
  let key := normKey email
  let attempts := getCount g.loginAttempts key
  let remainingAttempts := MAX_LOGIN_ATTEMPTS - attempts
  let g1 :=
    if staleFires g key now then
      { g with loginAttempts := mapSet g.loginAttempts key 0 }
    else g
  if remainingAttempts ≤ 0 then
    (⟨Outcome.locked, PENALTY_DELAY, some (5 - remainingAttempts)⟩,
     { g1 with loginAttempts := mapDel g1.loginAttempts key })
  else if ok then
    (⟨Outcome.authenticated, 0, none⟩,
     { g1 with loginAttempts := mapDel g1.loginAttempts key })
  else
    let newCount := getCount g1.loginAttempts key + 1
    (⟨Outcome.rejected newCount, 0, some (5 - remainingAttempts)⟩,
     { g1 with
        loginAttempts := mapSet g1.loginAttempts key newCount,
        lastLoginAttemptTime := mapSet g1.lastLoginAttemptTime key now })

/-- One HTTP login request: the email, whether the credentials verify, and
the value `Date.now()` returns when the request runs. -/
structure Attempt where
  email : String
  ok : Bool
  now : Int

/-- Run a sequence of (non-overlapping) requests against the shared maps,
collecting each request's result. -/
def run (g : GuardState) : List Attempt → List StepResult × GuardState
  | [] => ([], g)
  | a :: rest =>
    let p := login g a.email a.ok a.now
    let q := run p.2 rest
    (p.1 :: q.1, q.2)

/-- The recorded failure count of an identity (`loginAttempts[key] || 0`). -/
def attemptsOf (g : GuardState) (key : String) : Int :=
  getCount g.loginAttempts key

/-- The counter value the failure branch builds on: `0` if the staleness
reset just fired (it wrote `loginAttempts[key] = 0`), the stored counter
otherwise. -/
def staleAdjusted (g : GuardState) (key : String) (now : Int) : Int :=
  if staleFires g key now then 0 else getCount g.loginAttempts key

/-- Modelled from the spec: the result of the Credential Verifier
(`authenticationServices.checkLoginCredentials`, whose file is not among the
given sources). Per the spec's error taxonomy, an unknown identity and a
wrong secret both come back as the same falsy result, and a match comes back
truthy, so the verifier outcome is one of these three. -/
inductive VerifyResult where
  | okUser : VerifyResult
  | wrongSecret : VerifyResult
  | identityUnknown : VerifyResult

/-- The truthiness of the verifier's result, as the controller's
`if (!loginSuccess)` observes it. -/
def verifySucceeds : VerifyResult → Bool
  | VerifyResult.okUser => true
  | VerifyResult.wrongSecret => false
  | VerifyResult.identityUnknown => false

/-- `login` with the Credential Verifier's outcome made explicit. -/
def loginV (g : GuardState) (email : String) (v : VerifyResult) (now : Int) :
    StepResult × GuardState :=
  login g email (verifySucceeds v) now

/-!
Concurrency model for same-identity requests. Node runs each synchronous
segment of `login` atomically; control can only change hands at an `await`.
A `login` call has exactly two segments: everything up to the `await` of
`checkLoginCredentials` (or, in the lockout branch, up to the penalty
`setTimeout` `await`), and everything after it. `phaseA`/`phaseB` are those
two segments for a request whose credentials do NOT verify; an interleaving
of several such requests is a word over scheduler actions.
-/

/-- First synchronous segment of a failing `login` call: read the counter,
apply the staleness reset, take the lockout decision (returned Bool,
`true` = this request entered the lockout branch). -/
def phaseA (g : GuardState) (email : String) (now : Int) : Bool × GuardState :=
  let key := normKey email
  let attempts := getCount g.loginAttempts key
  let remainingAttempts := MAX_LOGIN_ATTEMPTS - attempts
  let g1 :=
    if staleFires g key now then
      { g with loginAttempts := mapSet g.loginAttempts key 0 }
    else g
  (if remainingAttempts ≤ 0 then true else false, g1)

/-- Second synchronous segment of a failing `login` call, after its `await`
resumes: the lockout branch deletes the counter; the wrong-credentials branch
re-reads the map, increments, and stamps the failure time. Returns the
counter value this request recorded, if it recorded one. -/
def phaseB (locked : Bool) (g : GuardState) (email : String) (now : Int) :
    Option Int × GuardState :=
  let key := normKey email
  if locked then
    (none, { g with loginAttempts := mapDel g.loginAttempts key })
  else
    let newCount := getCount g.loginAttempts key + 1
    (some newCount,
     { g with
        loginAttempts := mapSet g.loginAttempts key newCount,
        lastLoginAttemptTime := mapSet g.lastLoginAttemptTime key now })

/-- One scheduler action over a pool of concurrent failing requests for one
identity: `start` runs a fresh request's first segment; `finish i` resumes
the `i`-th currently-suspended request and runs its second segment. -/
inductive CAct where
  | start : CAct
  | finish : Nat → CAct

/-- Interleaving state: the shared guard maps, the lockout decisions of the
requests suspended between their two segments, how many requests have
started and finished, and the counter values recorded by finished requests
in completion order. -/
structure CState where
  g : GuardState
  pending : List Bool
  started : Nat
  done : Nat
  recorded : List Int

/-- No request has run yet; the shared maps are empty. -/
def CState.init : CState := ⟨GuardState.clean, [], 0, 0, []⟩

/-- Run one scheduler action (a `finish` that names no suspended request is
a no-op). All requests are for `email`, all issued at time `now`. -/
def cstep (email : String) (now : Int) (s : CState) : CAct → CState
  | CAct.start =>
    let p := phaseA s.g email now
    { s with g := p.2, pending := s.pending ++ [p.1], started := s.started + 1 }
  | CAct.finish i =>
    match s.pending.get? i with
    | none => s
    | some lk =>
      let p := phaseB lk s.g email now
      { s with
          g := p.2,
          pending := s.pending.eraseIdx i,
          done := s.done + 1,
          recorded := s.recorded ++ p.1.toList }

/-- Run a whole schedule of interleaved segments. -/
def crun (email : String) (now : Int) (s : CState) (acts : List CAct) : CState :=
  List.foldl (cstep email now) s acts

/-- How many requests a schedule starts. -/
def numStarts : List CAct → Nat
  | [] => 0
  | CAct.start :: r => numStarts r + 1
  | CAct.finish _ :: r => numStarts r

/-- `[1, 2, ..., n]` as integers: the attempt numbers `n` serialized
failure increments record. -/
def intRange1 (n : Nat) : List Int :=
  (List.range n).map (fun (i : Nat) => (i : Int) + 1)

/-- The counter invariant of the data model: every identity's recorded
failure count is non-negative and never exceeds `MAX_LOGIN_ATTEMPTS`. -/
def CountsBounded (g : GuardState) : Prop :=
  ∀ k : String, 0 ≤ getCount g.loginAttempts k ∧
    getCount g.loginAttempts k ≤ MAX_LOGIN_ATTEMPTS

end AuthGuard

namespace UsersService

/-- A stored user document, as the transfer path reads it. -/
structure UserRec where
  id : String
  name : String
  email : String
deriving DecidableEq, Repr

/-- A persisted transfer document: exactly the five arguments
`usersRepository.createTransfer(transferId, fromUser, toUser, amount,
timestamp)` receives (the service passes the looked-up user values, possibly
null, straight through). -/
structure TransferRec where
  transferId : String
  fromUser : Option UserRec
  toUser : Option UserRec
  amount : Int
  timestamp : Int
deriving DecidableEq, Repr

/-- The repository state the transfer path touches: stored users and the
persisted transfer documents, in insertion order. -/
structure Store where
  users : List UserRec
  transfers : List TransferRec

/-- Modelled from the spec: `usersRepository.getUser(id)` (the repository
file is not among the given sources; the spec classes it as a thin read
passthrough) — look a user up by id. -/
def getUser (s : Store) (id : String) : Option UserRec :=
  s.users.find? (fun u => u.id == id)

/-- Modelled from the spec: `usersRepository.createTransfer(...)` (not among
the given sources; a thin write passthrough) — persist one transfer
document. -/
def repoCreateTransfer (s : Store) (r : TransferRec) : Store :=
  { s with transfers := s.transfers ++ [r] }

/-- `createTransfer(id, toUserId, amount)` from `users-service.js`, with the
random `transferId` and the `Date.now()` timestamp passed as parameters.
Mirrors the source order: both users are looked up, the transfer is
persisted via `usersRepository.createTransfer`, and only THEN do the two
existence checks run (`if (!toUser) return null; if (!fromUser) return
null;`); `none` models the `null` returns. -/
def createTransfer (s : Store) (transferId : String) (id toUserId : String)
    (amount : Int) (timestamp : Int) : Option Bool × Store :=
  let toUser := getUser s toUserId
  let fromUser := getUser s id
  let s1 := repoCreateTransfer s
    ⟨transferId, fromUser, toUser, amount, timestamp⟩
  if toUser = none then (none, s1)
  else if fromUser = none then (none, s1)
  else (some true, s1)

end UsersService

namespace AuthGuard

theorem mapDel_self (m : JsMap) (k : String) : mapDel m k k = none := by
  simp [mapDel]

theorem mapSet_self (m : JsMap) (k : String) (v : Int) :
    mapSet m k v k = some v := by
  simp [mapSet]

theorem mapSet_mapDel (m : JsMap) (k : String) (v : Int) :
    mapSet (mapDel m k) k v = mapSet m k v := by
  funext x
  by_cases hx : x = k <;> simp [mapSet, mapDel, hx]

/-- The staleness condition only reads the timestamp map. -/
theorem staleFires_update (g : GuardState) (m : JsMap) (key : String)
    (now : Int) :
    staleFires { g with loginAttempts := m } key now = staleFires g key now :=
  rfl

/-- An attempt whose timestamp is the stored one never looks stale. -/
theorem staleFires_now (g : GuardState) (key : String) (t : Int)
    (hts : g.lastLoginAttemptTime key = some t) :
    staleFires g key t = false := by
  unfold staleFires
  rw [hts]
  simp only [ite_eq_right_iff]
  intro hcontra
  exfalso
  unfold LOGIN_TIMEOUT at hcontra
  omega

/-- An absent timestamp never looks stale. -/
theorem staleFires_none (g : GuardState) (key : String) (now : Int)
    (hts : g.lastLoginAttemptTime key = none) :
    staleFires g key now = false := by
  unfold staleFires
  rw [hts]

/-- The lockout branch of `login`: a counter already at `MAX_LOGIN_ATTEMPTS`
or beyond means the request waits the penalty, the counter entry is
deleted, and the outcome is `locked`; the timestamp map is untouched. -/
theorem login_locked_branch (g : GuardState) (e : String) (ok : Bool)
    (now : Int) (h : 4 ≤ attemptsOf g (normKey e)) :
    (login g e ok now).1.outcome = Outcome.locked ∧
    (login g e ok now).1.delayMs = PENALTY_DELAY ∧
    (login g e ok now).2.loginAttempts (normKey e) = none ∧
    (login g e ok now).2.lastLoginAttemptTime = g.lastLoginAttemptTime := by
  have hc : MAX_LOGIN_ATTEMPTS - getCount g.loginAttempts (normKey e) ≤ 0 := by
    unfold attemptsOf at h
    unfold MAX_LOGIN_ATTEMPTS
    omega
  simp only [login]
  rw [if_pos hc]
  refine ⟨rfl, rfl, mapDel_self _ _, ?_⟩
  by_cases hs : staleFires g (normKey e) now <;> simp [hs]

/-- The success branch of `login`: below the threshold with verifying
credentials, the counter entry is deleted, no delay is paid, and the
timestamp map is untouched. -/
theorem login_auth_branch (g : GuardState) (e : String) (now : Int)
    (h : attemptsOf g (normKey e) < 4) :
    (login g e true now).1.outcome = Outcome.authenticated ∧
    (login g e true now).1.delayMs = 0 ∧
    (login g e true now).2.loginAttempts (normKey e) = none ∧
    (login g e true now).2.lastLoginAttemptTime = g.lastLoginAttemptTime := by
  have hc : ¬ (MAX_LOGIN_ATTEMPTS - getCount g.loginAttempts (normKey e) ≤ 0) := by
    unfold attemptsOf at h
    unfold MAX_LOGIN_ATTEMPTS
    omega
  simp only [login]
  rw [if_neg hc]
  refine ⟨by simp, by simp, by simp [mapDel_self], ?_⟩
  by_cases hs : staleFires g (normKey e) now <;> simp [hs]

/-- The wrong-credentials branch of `login`: below the threshold with
non-verifying credentials, the counter becomes the (staleness-adjusted)
stored count plus one, the outcome reports that same number, no delay is
paid, and the failure time is stamped. -/
theorem login_fail_branch (g : GuardState) (e : String) (now : Int)
    (h : attemptsOf g (normKey e) < 4) :
    (login g e false now).1.outcome =
      Outcome.rejected (staleAdjusted g (normKey e) now + 1) ∧
    (login g e false now).1.delayMs = 0 ∧
    (login g e false now).2.loginAttempts (normKey e) =
      some (staleAdjusted g (normKey e) now + 1) ∧
    (login g e false now).2.lastLoginAttemptTime (normKey e) = some now := by
  have hc : ¬ (MAX_LOGIN_ATTEMPTS - getCount g.loginAttempts (normKey e) ≤ 0) := by
    unfold attemptsOf at h
    unfold MAX_LOGIN_ATTEMPTS
    omega
  simp only [login]
  rw [if_neg hc]
  by_cases hs : staleFires g (normKey e) now <;>
    simp [hs, staleAdjusted, mapSet_self, getCount]

/-- A `login` call only touches the caller's own key: every other identity's
counter and timestamp are unchanged. -/
theorem login_frame (g : GuardState) (e : String) (ok : Bool) (now : Int)
    (x : String) (hx : x ≠ normKey e) :
    (login g e ok now).2.loginAttempts x = g.loginAttempts x ∧
    (login g e ok now).2.lastLoginAttemptTime x = g.lastLoginAttemptTime x := by
  simp only [login]
  split_ifs <;> simp [mapSet, mapDel, hx]

end AuthGuard

namespace AuthGuard

/-- One `login` call preserves the counter bounds. -/
theorem login_preserves_bounds (g : GuardState) (e : String) (ok : Bool)
    (now : Int) (hg : CountsBounded g) : CountsBounded (login g e ok now).2 := by
  intro k
  by_cases hk : k = normKey e
  · subst hk
    by_cases h4 : 4 ≤ attemptsOf g (normKey e)
    · have hl := (login_locked_branch g e ok now h4).2.2.1
      unfold getCount
      rw [hl]
      unfold MAX_LOGIN_ATTEMPTS
      simp
    · push_neg at h4
      have hsa : 0 ≤ staleAdjusted g (normKey e) now ∧
          staleAdjusted g (normKey e) now ≤ 3 := by
        have hgk := hg (normKey e)
        unfold attemptsOf at h4
        unfold staleAdjusted
        split
        · omega
        · omega
      cases ok with
      | true =>
        have ha := (login_auth_branch g e now h4).2.2.1
        unfold getCount
        rw [ha]
        unfold MAX_LOGIN_ATTEMPTS
        simp
      | false =>
        have hf := (login_fail_branch g e now h4).2.2.1
        unfold getCount
        rw [hf]
        unfold MAX_LOGIN_ATTEMPTS
        simp
        omega
  · have hfr := login_frame g e ok now k hk
    unfold getCount
    rw [hfr.1]
    exact hg k

/-- Running a batch after a prefix is running the concatenation. -/
theorem run_append (g : GuardState) (l1 l2 : List Attempt) :
    (run g (l1 ++ l2)).2 = (run (run g l1).2 l2).2 := by
  induction l1 generalizing g with
  | nil => rfl
  | cons a r ih =>
    simp only [List.cons_append, run]
    exact ih _

/-- Any request sequence starting from bounded counters keeps them bounded. -/
theorem run_preserves_bounds (g : GuardState) (l : List Attempt)
    (hg : CountsBounded g) : CountsBounded (run g l).2 := by
  induction l generalizing g with
  | nil => exact hg
  | cons a r ih =>
    simp only [run]
    exact ih _ (login_preserves_bounds g a.email a.ok a.now hg)

/-- The staleness check does not fire when the gap between the stored
failure time and the current instant is within `LOGIN_TIMEOUT`. -/
theorem staleFires_gap (g : GuardState) (key : String) (x now : Int)
    (hts : g.lastLoginAttemptTime key = some x)
    (hgap : now - x ≤ LOGIN_TIMEOUT) :
    staleFires g key now = false := by
  have hneg : ¬ (x ≠ 0 ∧ LOGIN_TIMEOUT < now - x) := by
    rintro ⟨h1, h2⟩
    omega
  unfold staleFires
  rw [hts]
  show (if x ≠ 0 ∧ LOGIN_TIMEOUT < now - x then true else false) = false
  rw [if_neg hneg]

/-- Consecutive failing attempts from a clean state, at arbitrary instants
whose consecutive gaps stay within `LOGIN_TIMEOUT` (so the staleness reset
never fires): at most 4 of them record exactly their number, and the
stored failure time becomes the last attempt's instant. -/
theorem run_fail_times (e : String) (ts : List Int) (hlen : ts.length ≤ 4)
    (hchain : List.Chain' (fun a b => b - a ≤ LOGIN_TIMEOUT) ts) :
    (run GuardState.clean
      (ts.map (fun t => (⟨e, false, t⟩ : Attempt)))).2.loginAttempts
      (normKey e) =
      (if ts.length = 0 then none else some (ts.length : Int)) ∧
    (run GuardState.clean
      (ts.map (fun t => (⟨e, false, t⟩ : Attempt)))).2.lastLoginAttemptTime
      (normKey e) = ts.getLast? := by
  induction ts using List.reverseRecOn with
  | nil => exact ⟨rfl, rfl⟩
  | append_singleton l t ih =>
    obtain ⟨hcl, _, hrel⟩ := List.chain'_append.mp hchain
    have hlenl : l.length ≤ 4 := by
      rw [List.length_append] at hlen
      omega
    obtain ⟨ih1, ih2⟩ := ih hlenl hcl
    rw [List.map_append]
    simp only [List.map_cons, List.map_nil]
    have hr2 :
        (run GuardState.clean
          (l.map (fun t => (⟨e, false, t⟩ : Attempt)) ++
            [⟨e, false, t⟩])).2 =
        (login (run GuardState.clean
          (l.map (fun t => (⟨e, false, t⟩ : Attempt)))).2 e false t).2 := by
      rw [run_append]
      rfl
    rw [hr2]
    set g1 := (run GuardState.clean
      (l.map (fun t => (⟨e, false, t⟩ : Attempt)))).2 with hg1
    have hst : staleFires g1 (normKey e) t = false := by
      cases hl : l.getLast? with
      | none => exact staleFires_none g1 _ t (by rw [ih2, hl])
      | some x =>
        refine staleFires_gap g1 _ x t (by rw [ih2, hl]) ?_
        exact hrel x (Option.mem_def.mpr hl) t (Option.mem_def.mpr rfl)
    have hlt : attemptsOf g1 (normKey e) < 4 := by
      unfold attemptsOf getCount
      rw [ih1]
      by_cases hn0 : l.length = 0
      · simp [hn0]
      · simp [hn0]
        have hlen1 : l.length + 1 ≤ 4 := by simpa using hlen
        omega
    have hsa : staleAdjusted g1 (normKey e) t = (l.length : Int) := by
      unfold staleAdjusted
      rw [hst]
      unfold getCount
      rw [ih1]
      by_cases hn0 : l.length = 0 <;> simp [hn0]
    have hfb := login_fail_branch g1 e t hlt
    refine ⟨?_, ?_⟩
    · rw [hfb.2.2.1, hsa]
      simp [List.length_append]
    · rw [hfb.2.2.2, List.getLast?_concat]

/-- A request's first segment is a pure read (and a `false` lockout
decision) whenever the identity's counter is below the threshold and its
stored failure time, if any, is the current instant. -/
theorem phaseA_fresh (g : GuardState) (e : String) (now : Int)
    (hcnt : getCount g.loginAttempts (normKey e) < 4)
    (hts : g.lastLoginAttemptTime (normKey e) = none ∨
           g.lastLoginAttemptTime (normKey e) = some now) :
    phaseA g e now = (false, g) := by
  have hst : staleFires g (normKey e) now = false := by
    rcases hts with h | h
    · exact staleFires_none g _ now h
    · exact staleFires_now g _ now h
  have hrem : ¬ (MAX_LOGIN_ATTEMPTS - getCount g.loginAttempts (normKey e) ≤ 0) := by
    unfold MAX_LOGIN_ATTEMPTS
    omega
  simp only [phaseA]
  rw [hst]
  simp [hrem]

/-- The second segment of a non-locked failing request increments the
counter it re-reads and stamps the failure time. -/
theorem phaseB_incr (g : GuardState) (e : String) (now : Int) :
    (phaseB false g e now).1 =
      some (getCount g.loginAttempts (normKey e) + 1) ∧
    (phaseB false g e now).2.loginAttempts (normKey e) =
      some (getCount g.loginAttempts (normKey e) + 1) ∧
    (phaseB false g e now).2.lastLoginAttemptTime (normKey e) = some now := by
  simp only [phaseB]
  simp [mapSet_self]

theorem intRange1_succ (n : Nat) :
    intRange1 (n + 1) = intRange1 n ++ [(n : Int) + 1] := by
  unfold intRange1
  rw [List.range_succ, List.map_append]
  rfl

theorem intRange1_nodup (n : Nat) : (intRange1 n).Nodup := by
  unfold intRange1
  refine List.Nodup.map ?_ (List.nodup_range n)
  intro a b hab
  have h1 : (a : Int) + 1 = (b : Int) + 1 := hab
  omega

end AuthGuard

namespace AuthGuard

/-- Interleaving invariant for concurrent failing requests on one identity
issued at one instant, starting from clean maps: as long as at most 4
requests start, every suspended request decided `false` (nobody saw the
lockout), the stored counter equals the number of finished requests, and
the recorded attempt numbers are exactly `1..done`. -/
theorem crun_inv (e : String) (now : Int) (acts : List CAct) (s : CState)
    (h1 : s.g.loginAttempts (normKey e) =
      (if s.done = 0 then none else some (s.done : Int)))
    (h2 : s.g.lastLoginAttemptTime (normKey e) =
      (if s.done = 0 then none else some now))
    (h3 : ∀ b ∈ s.pending, b = false)
    (h4 : s.pending.length + s.done = s.started)
    (h5 : s.recorded = intRange1 s.done)
    (h6 : s.started + numStarts acts ≤ 4) :
    (crun e now s acts).g.loginAttempts (normKey e) =
      (if (crun e now s acts).done = 0 then none
       else some ((crun e now s acts).done : Int)) ∧
    (crun e now s acts).recorded = intRange1 (crun e now s acts).done ∧
    (crun e now s acts).started = s.started + numStarts acts ∧
    (crun e now s acts).done ≤ (crun e now s acts).started := by
  induction acts generalizing s with
  | nil =>
    refine ⟨h1, h5, by simp [crun, numStarts], ?_⟩
    simp only [crun, List.foldl_nil]
    omega
  | cons a r ih =>
    have hstep : crun e now s (a :: r) = crun e now (cstep e now s a) r := by
      simp [crun]
    rw [hstep]
    cases a with
    | start =>
      have h6' : s.started + 1 + numStarts r ≤ 4 := by
        have : numStarts (CAct.start :: r) = numStarts r + 1 := rfl
        omega
      have hcnt : getCount s.g.loginAttempts (normKey e) < 4 := by
        unfold getCount
        rw [h1]
        by_cases h0 : s.done = 0
        · simp [h0]
        · simp [h0]
          omega
      have hts : s.g.lastLoginAttemptTime (normKey e) = none ∨
          s.g.lastLoginAttemptTime (normKey e) = some now := by
        by_cases h0 : s.done = 0
        · left
          rw [h2]
          simp [h0]
        · right
          rw [h2]
          simp [h0]
      have hA : phaseA s.g e now = (false, s.g) :=
        phaseA_fresh s.g e now hcnt hts
      have hcs : cstep e now s CAct.start =
          { s with pending := s.pending ++ [false],
                   started := s.started + 1 } := by
        simp [cstep, hA]
      rw [hcs]
      obtain ⟨c1, c2, c3, c4⟩ :=
        ih { s with pending := s.pending ++ [false],
                    started := s.started + 1 }
          h1 h2
          (by
            intro b hb
            rcases List.mem_append.mp hb with hb | hb
            · exact h3 b hb
            · simpa using hb)
          (by simp; omega)
          h5 h6'
      refine ⟨c1, c2, ?_, c4⟩
      rw [c3]
      show s.started + 1 + numStarts r = s.started + (numStarts r + 1)
      omega
    | finish i =>
      cases hgi : s.pending.get? i with
      | none =>
        have hcs : cstep e now s (CAct.finish i) = s := by
          simp only [cstep, hgi]
        rw [hcs]
        have h6' : s.started + numStarts r ≤ 4 := by
          have : numStarts (CAct.finish i :: r) = numStarts r := rfl
          omega
        obtain ⟨c1, c2, c3, c4⟩ := ih s h1 h2 h3 h4 h5 h6'
        refine ⟨c1, c2, ?_, c4⟩
        rw [c3]
        rfl
      | some lk =>
        have hlk : lk = false := h3 lk (List.get?_mem hgi)
        subst hlk
        have hilt : i < s.pending.length := (List.get?_eq_some.mp hgi).1
        have hB := phaseB_incr s.g e now
        have hcnt : getCount s.g.loginAttempts (normKey e) = (s.done : Int) := by
          unfold getCount
          rw [h1]
          by_cases h0 : s.done = 0 <;> simp [h0]
        have hcs : cstep e now s (CAct.finish i) =
            { s with g := (phaseB false s.g e now).2,
                     pending := s.pending.eraseIdx i,
                     done := s.done + 1,
                     recorded := s.recorded ++
                       ((phaseB false s.g e now).1).toList } := by
          simp only [cstep, hgi]
        rw [hcs]
        have hrec : ((phaseB false s.g e now).1).toList =
            [(s.done : Int) + 1] := by
          rw [hB.1, hcnt]
          rfl
        have h6' : s.started + numStarts r ≤ 4 := by
          have : numStarts (CAct.finish i :: r) = numStarts r := rfl
          omega
        obtain ⟨c1, c2, c3, c4⟩ :=
          ih { s with g := (phaseB false s.g e now).2,
                      pending := s.pending.eraseIdx i,
                      done := s.done + 1,
                      recorded := s.recorded ++
                        ((phaseB false s.g e now).1).toList }
            (by
              show (phaseB false s.g e now).2.loginAttempts (normKey e) = _
              rw [hB.2.1, hcnt]
              simp)
            (by
              show (phaseB false s.g e now).2.lastLoginAttemptTime (normKey e) = _
              rw [hB.2.2]
              simp)
            (by
              intro b hb
              exact h3 b (List.eraseIdx_subset s.pending i hb))
            (by
              show (s.pending.eraseIdx i).length + (s.done + 1) = s.started
              have := List.length_eraseIdx_add_one hilt
              omega)
            (by
              show s.recorded ++ ((phaseB false s.g e now).1).toList =
                intRange1 (s.done + 1)
              rw [hrec, h5, intRange1_succ])
            h6'
        refine ⟨c1, c2, ?_, c4⟩
        rw [c3]
        rfl

end AuthGuard

namespace AuthGuard

/-- A call that reports `authenticated` deleted the identity's counter and
left the timestamp map exactly as it was. -/
theorem login_success_clears (g : GuardState) (e : String) (now : Int)
    (h : (login g e true now).1.outcome = Outcome.authenticated) :
    (login g e true now).2.loginAttempts (normKey e) = none ∧
    (login g e true now).2.lastLoginAttemptTime = g.lastLoginAttemptTime := by
  by_cases h4 : 4 ≤ attemptsOf g (normKey e)
  · have hl := (login_locked_branch g e true now h4).1
    rw [h] at hl
    exact absurd hl (by simp)
  · push_neg at h4
    exact ⟨(login_auth_branch g e now h4).2.2.1,
           (login_auth_branch g e now h4).2.2.2⟩

/-- Claim C1, counterexample: four consecutive failed attempts for a clean
identity do NOT yield `[Rejected(1), Rejected(2), Rejected(3), Locked]`.
The lockout check `remainingAttempts <= 0` lets all four failures reach the
verifier, so the 4th outcome is `Rejected(4)`. -/
theorem C1_counterexample :
    ((run GuardState.clean
      [⟨"bob@x.com", false, 1⟩, ⟨"bob@x.com", false, 2⟩,
       ⟨"bob@x.com", false, 3⟩, ⟨"bob@x.com", false, 4⟩]).1.map
        (fun r => r.outcome)) ≠
      [Outcome.rejected 1, Outcome.rejected 2, Outcome.rejected 3,
       Outcome.locked] ∧
    ((run GuardState.clean
      [⟨"bob@x.com", false, 1⟩, ⟨"bob@x.com", false, 2⟩,
       ⟨"bob@x.com", false, 3⟩, ⟨"bob@x.com", false, 4⟩]).1.map
        (fun r => r.outcome)) =
      [Outcome.rejected 1, Outcome.rejected 2, Outcome.rejected 3,
       Outcome.rejected 4] := by
  exact ⟨by decide, by decide⟩

/-- Claim C1, amended: from a clean identity, consecutive failed attempts
yield `Rejected(1) … Rejected(4)`; the lockout trips on the 5th attempt
(the first made with the counter at `MAX_LOGIN_ATTEMPTS`), which yields
`Locked` after the penalty delay and deletes the counter, so the identity
behaves as fresh again: the stored count after the trip is absent and a
6th failing attempt yields `Rejected(1)`. -/
theorem C1_amended :
    ((run GuardState.clean
      [⟨"bob@x.com", false, 1⟩, ⟨"bob@x.com", false, 2⟩,
       ⟨"bob@x.com", false, 3⟩, ⟨"bob@x.com", false, 4⟩,
       ⟨"bob@x.com", false, 5⟩, ⟨"bob@x.com", false, 6⟩]).1.map
        (fun r => r.outcome)) =
      [Outcome.rejected 1, Outcome.rejected 2, Outcome.rejected 3,
       Outcome.rejected 4, Outcome.locked, Outcome.rejected 1] ∧
    (run GuardState.clean
      [⟨"bob@x.com", false, 1⟩, ⟨"bob@x.com", false, 2⟩,
       ⟨"bob@x.com", false, 3⟩, ⟨"bob@x.com", false, 4⟩,
       ⟨"bob@x.com", false, 5⟩]).2.loginAttempts "bob@x.com" = none ∧
    ((run GuardState.clean
      [⟨"bob@x.com", false, 1⟩, ⟨"bob@x.com", false, 2⟩,
       ⟨"bob@x.com", false, 3⟩, ⟨"bob@x.com", false, 4⟩,
       ⟨"bob@x.com", false, 5⟩]).1.map (fun r => r.delayMs)) =
      [0, 0, 0, 0, PENALTY_DELAY] := by
  exact ⟨by decide, by decide, by decide⟩

/-- Claim C3, counterexample: the lockout path does NOT reset the
identity's record to absent. After 4 failures and the locked 5th attempt,
the counter entry is deleted but `lastLoginAttemptTime` still holds the
4th failure's timestamp. -/
theorem C3_counterexample :
    ((run GuardState.clean
      [⟨"bob@x.com", false, 1⟩, ⟨"bob@x.com", false, 2⟩,
       ⟨"bob@x.com", false, 3⟩, ⟨"bob@x.com", false, 4⟩,
       ⟨"bob@x.com", false, 5⟩]).1.map (fun r => r.outcome)).getLast? =
      some Outcome.locked ∧
    (run GuardState.clean
      [⟨"bob@x.com", false, 1⟩, ⟨"bob@x.com", false, 2⟩,
       ⟨"bob@x.com", false, 3⟩, ⟨"bob@x.com", false, 4⟩,
       ⟨"bob@x.com", false, 5⟩]).2.lastLoginAttemptTime "bob@x.com" =
      some 4 := by
  exact ⟨by decide, by decide⟩

/-- Claim C3, amended: every attempt that finds the identity locked
(stored count at least `MAX_LOGIN_ATTEMPTS` at the pre-reset read) pays
the penalty delay, has its failure-counter entry deleted (a one-shot
penalty per exhaustion), and receives `Locked`; the last-failure timestamp
map, however, is left untouched rather than reset to absent. -/
theorem C3_amended (g : GuardState) (e : String) (ok : Bool) (now : Int)
    (h : 4 ≤ attemptsOf g (normKey e)) :
    (login g e ok now).1.outcome = Outcome.locked ∧
    (login g e ok now).1.delayMs = PENALTY_DELAY ∧
    (login g e ok now).2.loginAttempts (normKey e) = none ∧
    (login g e ok now).2.lastLoginAttemptTime = g.lastLoginAttemptTime :=
  login_locked_branch g e ok now h

/-- Witness for C3's amended theorem at a reachable locked state. -/
theorem C3_witness :
    4 ≤ attemptsOf (run GuardState.clean
      [⟨"bob@x.com", false, 1⟩, ⟨"bob@x.com", false, 2⟩,
       ⟨"bob@x.com", false, 3⟩, ⟨"bob@x.com", false, 4⟩]).2
      (normKey "bob@x.com") ∧
    (login (run GuardState.clean
      [⟨"bob@x.com", false, 1⟩, ⟨"bob@x.com", false, 2⟩,
       ⟨"bob@x.com", false, 3⟩, ⟨"bob@x.com", false, 4⟩]).2
      "bob@x.com" false 5).1.outcome = Outcome.locked :=
  ⟨by decide,
   (C3_amended (run GuardState.clean
      [⟨"bob@x.com", false, 1⟩, ⟨"bob@x.com", false, 2⟩,
       ⟨"bob@x.com", false, 3⟩, ⟨"bob@x.com", false, 4⟩]).2
      "bob@x.com" false 5 (by decide)).1⟩

/-- Claim C4, counterexample: a successful login does NOT clear the
identity's record entirely. After 2 failures and a success, the counter
entry is absent but the last-failure timestamp entry survives (it is never
deleted anywhere in the controller). -/
theorem C4_counterexample :
    ((run GuardState.clean
      [⟨"bob@x.com", false, 10⟩, ⟨"bob@x.com", false, 20⟩,
       ⟨"bob@x.com", true, 30⟩]).1.map (fun r => r.outcome)) =
      [Outcome.rejected 1, Outcome.rejected 2, Outcome.authenticated] ∧
    (run GuardState.clean
      [⟨"bob@x.com", false, 10⟩, ⟨"bob@x.com", false, 20⟩,
       ⟨"bob@x.com", true, 30⟩]).2.loginAttempts "bob@x.com" = none ∧
    (run GuardState.clean
      [⟨"bob@x.com", false, 10⟩, ⟨"bob@x.com", false, 20⟩,
       ⟨"bob@x.com", true, 30⟩]).2.lastLoginAttemptTime "bob@x.com" =
      some 20 := by
  exact ⟨by decide, by decide, by decide⟩

/-- Claim C4, amended: an `Authenticated` outcome deletes the identity's
failure counter — no throttle-relevant count survives a success — but the
`lastLoginAttemptTime` entry is NOT removed: the whole timestamp map is
left exactly as it was. -/
theorem C4_amended (g : GuardState) (e : String) (now : Int)
    (h : (login g e true now).1.outcome = Outcome.authenticated) :
    (login g e true now).2.loginAttempts (normKey e) = none ∧
    (login g e true now).2.lastLoginAttemptTime = g.lastLoginAttemptTime :=
  login_success_clears g e now h

/-- Witness for C4's amended theorem. -/
theorem C4_witness :
    (login GuardState.clean "bob@x.com" true 7).1.outcome =
      Outcome.authenticated ∧
    (login GuardState.clean "bob@x.com" true 7).2.loginAttempts
      (normKey "bob@x.com") = none :=
  ⟨by decide, (C4_amended GuardState.clean "bob@x.com" 7 (by decide)).1⟩

end AuthGuard

namespace AuthGuard

/-- When the staleness reset fires and the pre-read count is below the
threshold, the call behaves exactly as on the state with the counter entry
deleted: same outcome, same resulting counter map. -/
theorem login_stale_fresh (g : GuardState) (e : String) (ok : Bool)
    (now : Int) (hsf : staleFires g (normKey e) now = true)
    (hlt : attemptsOf g (normKey e) < 4) :
    (login g e ok now).1.outcome =
      (login { g with loginAttempts := mapDel g.loginAttempts (normKey e) }
        e ok now).1.outcome ∧
    (login g e ok now).2.loginAttempts =
      (login { g with loginAttempts := mapDel g.loginAttempts (normKey e) }
        e ok now).2.loginAttempts := by
  have hsfd : staleFires
      { g with loginAttempts := mapDel g.loginAttempts (normKey e) }
      (normKey e) now = true := by
    rw [staleFires_update]
    exact hsf
  have hc1 : ¬ (MAX_LOGIN_ATTEMPTS - getCount g.loginAttempts (normKey e) ≤ 0) := by
    unfold attemptsOf at hlt
    unfold MAX_LOGIN_ATTEMPTS
    omega
  have hc2 : ¬ (MAX_LOGIN_ATTEMPTS -
      getCount (mapDel g.loginAttempts (normKey e)) (normKey e) ≤ 0) := by
    unfold getCount mapDel
    unfold MAX_LOGIN_ATTEMPTS
    simp
  constructor
  · simp only [login]
    rw [hsf, hsfd]
    simp only [if_true]
    rw [if_neg hc1, if_neg hc2]
    cases ok with
    | false => simp [getCount, mapSet]
    | true => simp
  · simp only [login]
    rw [hsf, hsfd]
    simp only [if_true]
    rw [if_neg hc1, if_neg hc2]
    cases ok with
    | false =>
      simp only [Bool.false_eq_true, if_false]
      funext x
      by_cases hx : x = normKey e <;> simp [mapSet, mapDel, getCount, hx]
    | true =>
      simp only [if_true]
      funext x
      by_cases hx : x = normKey e <;> simp [mapSet, mapDel, hx]

/-- Claim C2, counterexample: an identity that already reached
`MAX_LOGIN_ATTEMPTS` failures is NOT evaluated as fresh after the lockout
window has passed. 40 minutes after its 4th failure, an attempt with
CORRECT credentials is `Locked`, while the same attempt on the state with
the counter genuinely absent would be `Authenticated` — the lockout
decision reads the count BEFORE the staleness reset takes effect. -/
theorem C2_counterexample :
    (login (run GuardState.clean
      [⟨"bob@x.com", false, 1⟩, ⟨"bob@x.com", false, 2⟩,
       ⟨"bob@x.com", false, 3⟩, ⟨"bob@x.com", false, 4⟩]).2
      "bob@x.com" true (4 + 40 * 60 * 1000)).1.outcome = Outcome.locked ∧
    (login { (run GuardState.clean
      [⟨"bob@x.com", false, 1⟩, ⟨"bob@x.com", false, 2⟩,
       ⟨"bob@x.com", false, 3⟩, ⟨"bob@x.com", false, 4⟩]).2 with
        loginAttempts := mapDel (run GuardState.clean
          [⟨"bob@x.com", false, 1⟩, ⟨"bob@x.com", false, 2⟩,
           ⟨"bob@x.com", false, 3⟩, ⟨"bob@x.com", false, 4⟩]).2.loginAttempts
          "bob@x.com" }
      "bob@x.com" true (4 + 40 * 60 * 1000)).1.outcome =
      Outcome.authenticated := by
  exact ⟨by decide, by decide⟩

/-- Claim C2, amended: when the elapsed time since the last failure exceeds
`LOGIN_TIMEOUT`, the reset applies before the attempt counting — an
identity whose pre-read count is below `MAX_LOGIN_ATTEMPTS` is evaluated
exactly as if its counter were absent (same outcome, same resulting
counter map, so one more failure records count 1) — but the lockout
decision uses the count read BEFORE the reset, so an identity already at
`MAX_LOGIN_ATTEMPTS` still receives `Locked`. -/
theorem C2_amended (g : GuardState) (e : String) (ok : Bool) (now t : Int)
    (hts : g.lastLoginAttemptTime (normKey e) = some t) (ht0 : t ≠ 0)
    (hstale : LOGIN_TIMEOUT < now - t) :
    (attemptsOf g (normKey e) < 4 →
      (login g e ok now).1.outcome =
        (login { g with loginAttempts := mapDel g.loginAttempts (normKey e) }
          e ok now).1.outcome ∧
      (login g e ok now).2.loginAttempts =
        (login { g with loginAttempts := mapDel g.loginAttempts (normKey e) }
          e ok now).2.loginAttempts) ∧
    (4 ≤ attemptsOf g (normKey e) →
      (login g e ok now).1.outcome = Outcome.locked) := by
  have hsf : staleFires g (normKey e) now = true := by
    unfold staleFires
    rw [hts]
    simp [ht0, hstale]
  constructor
  · intro hlt
    exact login_stale_fresh g e ok now hsf hlt
  · intro h4
    exact (login_locked_branch g e ok now h4).1

/-- Witness for C2's amended theorem: the spec's literal scenario — 3
failures, then a 40-minute gap — is evaluated like a fresh identity. -/
theorem C2_witness :
    ((run GuardState.clean
      [⟨"bob@x.com", false, 1000⟩, ⟨"bob@x.com", false, 2000⟩,
       ⟨"bob@x.com", false, 3000⟩]).2.lastLoginAttemptTime
        (normKey "bob@x.com") = some 3000 ∧
     (3000 : Int) ≠ 0 ∧
     LOGIN_TIMEOUT < (3000 + 40 * 60 * 1000) - 3000 ∧
     attemptsOf (run GuardState.clean
      [⟨"bob@x.com", false, 1000⟩, ⟨"bob@x.com", false, 2000⟩,
       ⟨"bob@x.com", false, 3000⟩]).2 (normKey "bob@x.com") < 4) ∧
    (login (run GuardState.clean
      [⟨"bob@x.com", false, 1000⟩, ⟨"bob@x.com", false, 2000⟩,
       ⟨"bob@x.com", false, 3000⟩]).2 "bob@x.com" false
      (3000 + 40 * 60 * 1000)).1.outcome =
      (login { (run GuardState.clean
        [⟨"bob@x.com", false, 1000⟩, ⟨"bob@x.com", false, 2000⟩,
         ⟨"bob@x.com", false, 3000⟩]).2 with
          loginAttempts := mapDel (run GuardState.clean
            [⟨"bob@x.com", false, 1000⟩, ⟨"bob@x.com", false, 2000⟩,
             ⟨"bob@x.com", false, 3000⟩]).2.loginAttempts
            (normKey "bob@x.com") }
        "bob@x.com" false (3000 + 40 * 60 * 1000)).1.outcome :=
  ⟨⟨by decide, by decide, by decide, by decide⟩,
   ((C2_amended (run GuardState.clean
      [⟨"bob@x.com", false, 1000⟩, ⟨"bob@x.com", false, 2000⟩,
       ⟨"bob@x.com", false, 3000⟩]).2 "bob@x.com" false
      (3000 + 40 * 60 * 1000) 3000 (by decide) (by decide) (by decide)).1
      (by decide)).1⟩

/-- Claim C5: a success at any failure count resets the identity — the
next failing attempt, whenever it happens, is counted and reported as
failure number 1, not as a continuation of the earlier count. -/
theorem C5_reset_on_success (g : GuardState) (e : String) (now now2 : Int)
    (h : (login g e true now).1.outcome = Outcome.authenticated) :
    (login (login g e true now).2 e false now2).1.outcome =
      Outcome.rejected 1 ∧
    (login (login g e true now).2 e false now2).2.loginAttempts (normKey e) =
      some 1 := by
  have hcnt := (login_success_clears g e now h).1
  have hlt : attemptsOf (login g e true now).2 (normKey e) < 4 := by
    unfold attemptsOf getCount
    rw [hcnt]
    simp
  have hsa : staleAdjusted (login g e true now).2 (normKey e) now2 = 0 := by
    unfold staleAdjusted
    split
    · rfl
    · unfold getCount
      rw [hcnt]
      rfl
  have hfb := login_fail_branch (login g e true now).2 e now2 hlt
  rw [hsa] at hfb
  exact ⟨by simpa using hfb.1, by simpa using hfb.2.2.1⟩

/-- Witness for C5: two failures, a success, then one failure — the last
outcome is `Rejected(1)`. -/
theorem C5_witness :
    (login (run GuardState.clean
      [⟨"bob@x.com", false, 1⟩, ⟨"bob@x.com", false, 2⟩]).2
      "bob@x.com" true 3).1.outcome = Outcome.authenticated ∧
    (login (login (run GuardState.clean
      [⟨"bob@x.com", false, 1⟩, ⟨"bob@x.com", false, 2⟩]).2
      "bob@x.com" true 3).2 "bob@x.com" false 4).1.outcome =
      Outcome.rejected 1 :=
  ⟨by decide,
   (C5_reset_on_success (run GuardState.clean
      [⟨"bob@x.com", false, 1⟩, ⟨"bob@x.com", false, 2⟩]).2
      "bob@x.com" 3 4 (by decide)).1⟩

/-- Claim C6: (i) from a clean identity, any sequence of
`N < MAX_LOGIN_ATTEMPTS` consecutive failures — at arbitrary instants, no
intervening success, no staleness elapsed (each consecutive gap within
`LOGIN_TIMEOUT`) — leaves the stored count after the k-th failure at
exactly `k`, for every `k ≤ N`; (ii) every state reached from a state with
bounded counters keeps every identity's count within
`[0, MAX_LOGIN_ATTEMPTS]` — never negative, never beyond the threshold;
(iii) once the count is at `MAX_LOGIN_ATTEMPTS`, a further failing attempt
does not increment it again: the locked path deletes the entry instead of
double-counting. -/
theorem C6_monotonic_bounded :
    (∀ (e : String) (ts : List Int) (k : Nat), ts.length < 4 →
      List.Chain' (fun a b => b - a ≤ LOGIN_TIMEOUT) ts →
      1 ≤ k → k ≤ ts.length →
      (run GuardState.clean
        ((ts.take k).map (fun t => (⟨e, false, t⟩ : Attempt)))).2.loginAttempts
        (normKey e) = some (k : Int)) ∧
    (∀ (g : GuardState) (l : List Attempt), CountsBounded g →
      CountsBounded (run g l).2) ∧
    (∀ (g : GuardState) (e : String) (now : Int),
      4 ≤ attemptsOf g (normKey e) →
      (login g e false now).2.loginAttempts (normKey e) = none) := by
  refine ⟨?_, ?_, ?_⟩
  · intro e ts k hlen hchain hk1 hk2
    have htl : (ts.take k).length = k := by
      rw [List.length_take]
      omega
    have htc : List.Chain' (fun a b => b - a ≤ LOGIN_TIMEOUT) (ts.take k) :=
      hchain.prefix (List.take_prefix k ts)
    have hrf := (run_fail_times e (ts.take k) (by omega) htc).1
    rw [htl] at hrf
    rw [hrf]
    rw [if_neg (by omega)]
  · intro g l hg
    exact run_preserves_bounds g l hg
  · intro g e now h
    exact (login_locked_branch g e false now h).2.2.1

/-- Witness for C6: three failures spaced almost half an hour apart (all
gaps within the window) record count 3. -/
theorem C6_witness :
    ((([1000, 1500000, 3000000] : List Int)).length < 4 ∧
     List.Chain' (fun a b => b - a ≤ LOGIN_TIMEOUT)
       ([1000, 1500000, 3000000] : List Int) ∧
     (1 : Nat) ≤ 3 ∧ (3 : Nat) ≤ (([1000, 1500000, 3000000] : List Int)).length) ∧
    (run GuardState.clean
      ((([1000, 1500000, 3000000] : List Int).take 3).map
        (fun t => (⟨"bob@x.com", false, t⟩ : Attempt)))).2.loginAttempts
      (normKey "bob@x.com") = some ((3 : Nat) : Int) :=
  ⟨⟨by norm_num, by simp [List.chain'_cons, LOGIN_TIMEOUT], by norm_num,
    by norm_num⟩,
   C6_monotonic_bounded.1 "bob@x.com" [1000, 1500000, 3000000] 3
     (by norm_num) (by simp [List.chain'_cons, LOGIN_TIMEOUT]) (by norm_num)
     (by norm_num)⟩

/-- Claim C7: the guard never fails on its own account — every call
classifies into one of the three outcomes — and a verifier failure due to
an unknown identity is handled EXACTLY like a wrong-secret failure: the
very same result and state update, which below the threshold means the
counter increments and the call is classified `Rejected`. -/
theorem C7_uniform_failures (g : GuardState) (e : String) (now : Int)
    (v : VerifyResult) :
    loginV g e VerifyResult.identityUnknown now =
      loginV g e VerifyResult.wrongSecret now ∧
    ((loginV g e v now).1.outcome = Outcome.authenticated ∨
     (loginV g e v now).1.outcome = Outcome.locked ∨
     ∃ n : Int, (loginV g e v now).1.outcome = Outcome.rejected n) ∧
    (attemptsOf g (normKey e) < 4 →
      (loginV g e VerifyResult.identityUnknown now).1.outcome =
        Outcome.rejected (staleAdjusted g (normKey e) now + 1) ∧
      (loginV g e VerifyResult.identityUnknown now).2.loginAttempts
        (normKey e) = some (staleAdjusted g (normKey e) now + 1)) := by
  refine ⟨rfl, ?_, ?_⟩
  · by_cases h4 : 4 ≤ attemptsOf g (normKey e)
    · exact Or.inr (Or.inl
        (login_locked_branch g e (verifySucceeds v) now h4).1)
    · push_neg at h4
      cases v with
      | okUser => exact Or.inl (login_auth_branch g e now h4).1
      | wrongSecret =>
        exact Or.inr (Or.inr ⟨_, (login_fail_branch g e now h4).1⟩)
      | identityUnknown =>
        exact Or.inr (Or.inr ⟨_, (login_fail_branch g e now h4).1⟩)
  · intro h4
    exact ⟨(login_fail_branch g e now h4).1,
           (login_fail_branch g e now h4).2.2.1⟩

/-- Witness for C7. -/
theorem C7_witness :
    attemptsOf GuardState.clean (normKey "bob@x.com") < 4 ∧
    (loginV GuardState.clean "bob@x.com" VerifyResult.identityUnknown
      9).1.outcome =
      Outcome.rejected
        (staleAdjusted GuardState.clean (normKey "bob@x.com") 9 + 1) :=
  ⟨by decide,
   ((C7_uniform_failures GuardState.clean "bob@x.com" 9
      VerifyResult.identityUnknown).2.2 (by decide)).1⟩

/-- Claim C8: the penalty delay is tied exactly to the `Locked` outcome: a
call that returns `Locked` awaited the full `PENALTY_DELAY` (synchronously,
before its rejection was produced), and every other call awaited no delay
at all. -/
theorem C8_delay_iff_locked (g : GuardState) (e : String) (ok : Bool)
    (now : Int) :
    (login g e ok now).1.delayMs =
      (if (login g e ok now).1.outcome = Outcome.locked then PENALTY_DELAY
       else 0) := by
  by_cases h4 : 4 ≤ attemptsOf g (normKey e)
  · have hl := login_locked_branch g e ok now h4
    rw [hl.2.1, hl.1]
    simp
  · push_neg at h4
    cases ok with
    | false =>
      have hf := login_fail_branch g e now h4
      rw [hf.2.1, hf.1]
      simp
    | true =>
      have ha := login_auth_branch g e now h4
      rw [ha.2.1, ha.1]
      simp

end AuthGuard

namespace AuthGuard

/-- Claim C9: any interleaving of `M ≤ MAX_LOGIN_ATTEMPTS` concurrent
failing attempts for one identity (all issued at one instant, starting
from clean maps) that starts and completes all `M` requests leaves the
stored counter at exactly `M` — no increment is lost, because the
read-modify-write `loginAttempts[key] = (loginAttempts[key] || 0) + 1` is
one atomic synchronous segment — and the attempt numbers the requests
record are exactly `1..M`, pairwise distinct: no two concurrent failures
are counted as the same attempt number. -/
theorem C9_no_lost_updates (e : String) (now : Int) (M : Nat)
    (acts : List CAct) (hM : M ≤ 4) (hM1 : 1 ≤ M)
    (hstart : numStarts acts = M)
    (hdone : (crun e now CState.init acts).done = M) :
    (crun e now CState.init acts).g.loginAttempts (normKey e) =
      some (M : Int) ∧
    (crun e now CState.init acts).recorded = intRange1 M ∧
    (crun e now CState.init acts).recorded.Nodup := by
  obtain ⟨c1, c2, c3, c4⟩ := crun_inv e now acts CState.init rfl rfl
    (by intro b hb; simp [CState.init] at hb)
    rfl rfl
    (by
      show 0 + numStarts acts ≤ 4
      rw [hstart]
      omega)
  rw [hdone] at c1 c2
  refine ⟨?_, c2, ?_⟩
  · rw [c1]
    rw [if_neg (by omega)]
  · rw [c2]
    exact intRange1_nodup M

/-- Witness for C9: two requests whose segments fully interleave
(both read before either writes) still produce final count 2. -/
theorem C9_witness :
    ((2 : Nat) ≤ 4 ∧ (1 : Nat) ≤ 2 ∧
     numStarts [CAct.start, CAct.start, CAct.finish 0, CAct.finish 0] = 2 ∧
     (crun "bob@x.com" 5 CState.init
       [CAct.start, CAct.start, CAct.finish 0, CAct.finish 0]).done = 2) ∧
    (crun "bob@x.com" 5 CState.init
      [CAct.start, CAct.start, CAct.finish 0, CAct.finish 0]).g.loginAttempts
      (normKey "bob@x.com") = some ((2 : Nat) : Int) :=
  ⟨⟨by norm_num, by norm_num, by decide, by decide⟩,
   (C9_no_lost_updates "bob@x.com" 5 2
      [CAct.start, CAct.start, CAct.finish 0, CAct.finish 0]
      (by norm_num) (by norm_num) (by decide) (by decide)).1⟩

end AuthGuard

namespace UsersService

/-- Claim C10: when the recipient or the sender does not exist,
`createTransfer` returns `null` — but the transfer document has already
been persisted, because `usersRepository.createTransfer` runs before
either existence check. The store is NOT unchanged on error: the persisted
list grew by exactly the new document. -/
theorem C10_persists_on_error (s : Store) (tid id toId : String)
    (amount ts : Int)
    (h : getUser s toId = none ∨ getUser s id = none) :
    (createTransfer s tid id toId amount ts).1 = none ∧
    (createTransfer s tid id toId amount ts).2.transfers =
      s.transfers ++
        [⟨tid, getUser s id, getUser s toId, amount, ts⟩] ∧
    (createTransfer s tid id toId amount ts).2.transfers ≠ s.transfers := by
  have hgrow : s.transfers ++
      [(⟨tid, getUser s id, getUser s toId, amount, ts⟩ : TransferRec)] ≠
      s.transfers := by
    intro heq
    have hlen := congrArg List.length heq
    simp at hlen
  rcases h with h | h
  · have hfst : (createTransfer s tid id toId amount ts) =
        (none, repoCreateTransfer s
          ⟨tid, getUser s id, getUser s toId, amount, ts⟩) := by
      simp only [createTransfer]
      rw [if_pos h]
    rw [hfst]
    exact ⟨rfl, rfl, hgrow⟩
  · by_cases h2 : getUser s toId = none
    · have hfst : (createTransfer s tid id toId amount ts) =
          (none, repoCreateTransfer s
            ⟨tid, getUser s id, getUser s toId, amount, ts⟩) := by
        simp only [createTransfer]
        rw [if_pos h2]
      rw [hfst]
      exact ⟨rfl, rfl, hgrow⟩
    · have hfst : (createTransfer s tid id toId amount ts) =
          (none, repoCreateTransfer s
            ⟨tid, getUser s id, getUser s toId, amount, ts⟩) := by
        simp only [createTransfer]
        rw [if_neg h2, if_pos h]
      rw [hfst]
      exact ⟨rfl, rfl, hgrow⟩

/-- Witness for C10: transferring between two non-existent users on an
empty store errors, yet persists the document. -/
theorem C10_witness :
    (getUser ⟨[], []⟩ "u2" = none ∨ getUser ⟨[], []⟩ "u1" = none) ∧
    (createTransfer ⟨[], []⟩ "t1" "u1" "u2" 50 99).1 = none ∧
    (createTransfer ⟨[], []⟩ "t1" "u1" "u2" 50 99).2.transfers ≠ [] :=
  ⟨Or.inl rfl,
   (C10_persists_on_error ⟨[], []⟩ "t1" "u1" "u2" 50 99 (Or.inl rfl)).1,
   (C10_persists_on_error ⟨[], []⟩ "t1" "u1" "u2" 50 99 (Or.inl rfl)).2.2⟩

end UsersService
